import Mathlib

/-!
# IceAndFireSqLite: the synchronisation flow of `src/screens/HomeScreen.js`

A shallow embedding of the non-presentation logic of the screen: the
argument list of the `INSERT` statement built by `saveDataToSQLite`, the
batch fetch of `fetchData`, the three database helpers and the start-up
flow `initializeDatabaseAndFetchData`.
-/

namespace IceAndFire

/-! ## JavaScript values -/

/-- The values a parsed JSON response can hold, plus `undefined` (the result of
reading a property an object does not have). Numbers are the integers, which
JavaScript renders in plain decimal below `10^21`; fractional numbers are
outside the model. An object is its list of own properties, read from the
front. -/
inductive JsVal where
  | undefined : JsVal
  | null : JsVal
  | bool (b : Bool) : JsVal
  | num (n : Int) : JsVal
  | str (s : String) : JsVal
  | arr (xs : List JsVal) : JsVal
  | obj (props : List (String × JsVal)) : JsVal

/-- The only exception the modelled code can raise by itself, and the
rejection reasons of the network layer. -/
inductive JsError where
  | typeError : JsError
  | networkError : JsError
  | syntaxError : JsError
  deriving DecidableEq, Repr

/-- ToBoolean: `undefined`, `null`, `false`, `0` and `""` are falsy, every
other value (arrays and objects included) is truthy. -/
def JsVal.truthy : JsVal → Bool
  | .undefined => false
  | .null => false
  | .bool b => b
  | .num n => n != 0
  | .str s => s != ""
  | .arr _ => true
  | .obj _ => true

/-- The operator `a || b`: `a` when it is truthy, else `b`. -/
def JsVal.or (a b : JsVal) : JsVal :=
  if a.truthy then a else b

/-- Property read `v.key` for the field names used by this screen: reading from
`undefined` or `null` throws a TypeError, an object yields its own property
or `undefined`, and a primitive or an array has none of these names. -/
def JsVal.getProp (v : JsVal) (key : String) : Except JsError JsVal :=
  match v with
  | .undefined => .error .typeError
  | .null => .error .typeError
  | .obj props => .ok ((props.lookup key).getD .undefined)
  | _ => .ok .undefined

mutual
/-- The text `Array.prototype.join` contributes for one element: the empty
string for `undefined` and `null`, ToString of the element otherwise. -/
def JsVal.joinText : JsVal → String
  | .undefined => ""
  | .null => ""
  | .bool true => "true"
  | .bool false => "false"
  | .num n => toString n
  | .str s => s
  | .arr xs => joinList "," xs
  | .obj _ => "[object Object]"
/-- The method `Array.prototype.join(sep)` on the elements of an array: the
element texts, with `sep` before every element but the first. -/
def joinList (sep : String) : List JsVal → String
  | [] => ""
  | [x] => x.joinText
  | x :: y :: rest => x.joinText ++ sep ++ joinList sep (y :: rest)
end

/-- The method call `v.join(sep)`: only an array has the method; on anything
else the property is `undefined` (or the read itself throws) and the call
raises a TypeError. -/
def JsVal.join (v : JsVal) (sep : String) : Except JsError JsVal :=
  match v with
  | .arr xs => .ok (.str (joinList sep xs))
  | _ => .error .typeError

/-! ## The INSERT statement of `saveDataToSQLite` -/

/-- The fifteen columns named by the `INSERT INTO characters (...)` text, in
the order of the statement. -/
def insertColumns : List String :=
  ["name", "gender", "culture", "born", "died", "titles", "aliases", "allegiances",
   "books", "father", "mother", "spouse", "povBooks", "tvSeries", "playedBy"]

/-- An argument of the form `character.key || 'dflt'`. -/
def scalarArg (character : JsVal) (key dflt : String) : Except JsError JsVal := do
  let v ← character.getProp key
  pure (v.or (.str dflt))

/-- The flattening `v.join(', ') || 'N/A'` of a sequence value. -/
def flatten (v : JsVal) : Except JsError JsVal := do
  let joined ← v.join ", "
  pure (joined.or (.str "N/A"))

/-- An argument of the form `character.key.join(', ') || 'N/A'`. -/
def joinArg (character : JsVal) (key : String) : Except JsError JsVal := do
  let v ← character.getProp key
  flatten v

/-- The array literal passed as the arguments of the `INSERT`, its fifteen
elements evaluated left to right; the first element that throws aborts the
evaluation. -/
def insertArgs (character : JsVal) : Except JsError (List JsVal) := do
  let name ← scalarArg character "name" "Unknown"
  let gender ← scalarArg character "gender" "N/A"
  let culture ← scalarArg character "culture" "N/A"
  let born ← scalarArg character "born" "N/A"
  let died ← scalarArg character "died" "N/A"
  let titles ← joinArg character "titles"
  let aliases ← joinArg character "aliases"
  let allegiances ← joinArg character "allegiances"
  let books ← joinArg character "books"
  let father ← scalarArg character "father" "N/A"
  let mother ← scalarArg character "mother" "N/A"
  let spouse ← scalarArg character "spouse" "N/A"
  let povBooks ← joinArg character "povBooks"
  let tvSeries ← joinArg character "tvSeries"
  let playedBy ← joinArg character "playedBy"
  pure [name, gender, culture, born, died, titles, aliases, allegiances, books,
        father, mother, spouse, povBooks, tvSeries, playedBy]

/-- A row of the table `characters`: the id the engine assigned and the
value bound to each named column. Values are kept as bound; the column
affinity conversions of the engine are not modelled. -/
structure Row where
  id : Nat
  cols : List (String × JsVal)

/-- The database behind the handle `db`: whether the table `characters`
exists, its rows in storage order, the next AUTOINCREMENT id and the number of
statements the engine has executed. -/
structure Db where
  created : Bool
  rows : List Row
  nextId : Nat
  executed : Nat

/-- Engine-level failures (disk, permissions): `fault n` tells whether the
statement executed at position `n` fails. -/
abbrev Fault := Nat → Bool

/-- The engine that never fails by itself. -/
def noFault : Fault := fun _ => false

/-- The three SQL texts of the screen. -/
inductive Sql where
  | createTable : Sql
  | insert (args : List JsVal) : Sql
  | selectAll : Sql

/-- One more statement has been executed. -/
def Db.tick (db : Db) : Db :=
  { db with executed := db.executed + 1 }

/-- Modelled from the spec: the storage engine behind the handle `db`, a
library that is not part of the source. Execution of one statement: `none` is
a statement error, `some rows` the result set. `CREATE TABLE IF NOT EXISTS`
keeps an existing table, `INSERT` appends one row under the next id and needs
the table and one argument per column, `SELECT *` returns every row in
storage order and needs the table. -/
def execSql (fault : Fault) (db : Db) : Sql → Db × Option (List Row)
  | .createTable =>
    if fault db.executed then (db.tick, none)
    else ({ db.tick with created := true }, some [])
  | .insert args =>
    if fault db.executed || !db.created || args.length != insertColumns.length then
      (db.tick, none)
    else
      ({ db.tick with rows := db.rows ++ [⟨db.nextId, insertColumns.zip args⟩],
                      nextId := db.nextId + 1 }, some [])
  | .selectAll =>
    if fault db.executed || !db.created then (db.tick, none)
    else (db.tick, some db.rows)

/-! ## The screen -/

/-- What the screen writes to the console or shows as a toast. -/
inductive Event where
  | tableCreated : Event
  | errorCreatingTable : Event
  | fetchedData (jsonData : List JsVal) : Event
  | errorFetchingData (e : JsError) : Event
  | characterInserted (name : JsVal) : Event
  | toastSuccess : Event
  | errorSavingCharacter : Event
  | dataFetchedFromSQLite (rows : List Row) : Event
  | errorFetchingFromSQLite : Event
  | initializationError (e : JsError) : Event

/-- Everything the three helpers can touch: the database, the React state
`data` and the output. The `loading` state is not part of it: `setLoading`
occurs only in `initializeDatabaseAndFetchData`. -/
structure World where
  db : Db
  data : List Row
  out : List Event

/-- Appends one event to the output. -/
def World.emit (w : World) (e : Event) : World :=
  { w with out := w.out ++ [e] }

/-- A call `tx.executeSql(sql, args, onSuccess, onError)`. -/
structure SqlTask where
  sql : Sql
  onSuccess : List Row → World → World
  onError : World → World

/-- Executes one queued statement and runs its callback. Every error callback
of this screen returns `undefined`, so the transaction goes on with the next
statement after a statement error. -/
def runTask (fault : Fault) (w : World) (t : SqlTask) : World :=
  match execSql fault w.db t.sql with
  | (db, some rows) => t.onSuccess rows { w with db := db }
  | (db, none) => t.onError { w with db := db }

/-- Modelled from the spec: the call `db.transaction(callback)` of the storage
library, which is not part of the source, after the Web SQL processing model.
`cb` is what the callback did, the statements it queued and the exception it
threw, if any. A callback that throws aborts the transaction and nothing is
written (no transaction error callback is passed, so nothing is logged);
otherwise the queued statements run in order. Transactions of one handle run
first in, first out, so each is run to completion where it is issued. -/
def transaction (fault : Fault) (w : World) (cb : List SqlTask × Option JsError) : World :=
  match cb.2 with
  | some _ => w
  | none => cb.1.foldl (runTask fault) w

/-- The statement queued by `createTable`. -/
def createTableTask : SqlTask :=
  { sql := .createTable
    onSuccess := fun _ w => w.emit .tableCreated
    onError := fun w => w.emit .errorCreatingTable }

/-- The function `createTable`. -/
def createTable (fault : Fault) (w : World) : World :=
  transaction fault w ([createTableTask], none)

/-- The value of `character.name` read by the success callback of an insert. -/
def nameOf (character : JsVal) : JsVal :=
  match character.getProp "name" with
  | .ok v => v
  | .error _ => .undefined

/-- The statement queued for one character, given its evaluated arguments. -/
def insertTask (character : JsVal) (args : List JsVal) : SqlTask :=
  { sql := .insert args
    onSuccess := fun _ w => (w.emit (.characterInserted (nameOf character))).emit .toastSuccess
    onError := fun w => w.emit .errorSavingCharacter }

/-- The transaction callback of `saveDataToSQLite`: `characters.forEach`
queues one insert per character, in order; an exception while evaluating the
arguments of one character leaves the loop, so neither that character nor any
later one is queued. -/
def saveCallback : List JsVal → List SqlTask × Option JsError
  | [] => ([], none)
  | character :: rest =>
    match insertArgs character with
    | .error e => ([], some e)
    | .ok args => ((insertTask character args) :: (saveCallback rest).1, (saveCallback rest).2)

/-- The function `saveDataToSQLite`. -/
def saveDataToSQLite (fault : Fault) (w : World) (characters : List JsVal) : World :=
  transaction fault w (saveCallback characters)

/-- The statement queued by `fetchDataFromSQLite`. -/
def selectTask : SqlTask :=
  { sql := .selectAll
    onSuccess := fun rows w => { w.emit (.dataFetchedFromSQLite rows) with data := rows }
    onError := fun w => w.emit .errorFetchingFromSQLite }

/-- The function `fetchDataFromSQLite`. -/
def fetchDataFromSQLite (fault : Fault) (w : World) : World :=
  transaction fault w ([selectTask], none)

/-! ## The remote fetcher -/

/-- A response: what `res.json()` settles to. -/
structure Response where
  json : Except JsError JsVal

/-- The network: what `fetch(url)` settles to. -/
abbrev Net := String → Except JsError Response

/-- The combinator `Promise.all`: the values in order when every promise fulfils, a
rejection when one of them rejects. -/
def promiseAll {α : Type} : List (Except JsError α) → Except JsError (List α)
  | [] => .ok []
  | p :: ps =>
    match p with
    | .error e => .error e
    | .ok v =>
      match promiseAll ps with
      | .ok vs => .ok (v :: vs)
      | .error e => .error e

/-- The four URLs of `fetchData`. -/
def urls : List String :=
  ["https://anapioficeandfire.com/api/characters/300",
   "https://anapioficeandfire.com/api/characters/301",
   "https://anapioficeandfire.com/api/characters/302",
   "https://anapioficeandfire.com/api/characters/303"]

/-- The two awaited lines of `fetchData`: the parsed bodies in URL order, or
the rejection that sends control to the `catch`. -/
def fetchJson (net : Net) : Except JsError (List JsVal) := do
  let responses ← promiseAll (urls.map net)
  let jsonData ← promiseAll (responses.map (fun res => res.json))
  pure jsonData

/-- The function `fetchData`: the characters handed to `saveDataToSQLite`
are those of `fetchJson`; a rejection is logged and swallowed. -/
def fetchData (net : Net) (fault : Fault) (w : World) : World :=
  match fetchJson net with
  | .ok jsonData => saveDataToSQLite fault (w.emit (.fetchedData jsonData)) jsonData
  | .error e => w.emit (.errorFetchingData e)

/-! ## The start-up flow -/

/-- The component state: the world of the helpers, the `loading` flag and the
calls of `setLoading` made so far. -/
structure Screen where
  world : World
  loading : Bool
  setLoadingCalls : List Bool

/-- The call `setLoading(v)`. -/
def Screen.setLoading (s : Screen) (v : Bool) : Screen :=
  { s with loading := v, setLoadingCalls := s.setLoadingCalls ++ [v] }

/-- A step of the `try` block: the world it leaves and the exception it
throws, if any. -/
abbrev Step := World → World × Option JsError

/-- The body of `initializeDatabaseAndFetchData` over three arbitrary steps:
the steps run in order until one throws, a thrown exception is logged by the
`catch`, and the `finally` calls `setLoading(false)`. -/
def initializeWith (s1 s2 s3 : Step) (scr : Screen) : Screen :=
  let tried : World × Option JsError :=
    match s1 scr.world with
    | (w1, some e) => (w1, some e)
    | (w1, none) =>
      match s2 w1 with
      | (w2, some e) => (w2, some e)
      | (w2, none) => s3 w2
  let caught : World :=
    match tried with
    | (w, some e) => w.emit (.initializationError e)
    | (w, none) => w
  ({ scr with world := caught }).setLoading false

/-- A helper that returns normally. -/
def returns (f : World → World) : Step :=
  fun w => (f w, none)

/-- The function `initializeDatabaseAndFetchData`. -/
def initializeDatabaseAndFetchData (net : Net) (fault : Fault) (scr : Screen) : Screen :=
  initializeWith (returns (createTable fault)) (returns (fetchData net fault))
    (returns (fetchDataFromSQLite fault)) scr

/-- The component at mount: `useState(true)`, `useState([])`, over a given
database. -/
def mount (db : Db) : Screen :=
  { world := { db := db, data := [], out := [] }, loading := true, setLoadingCalls := [] }

/-! ## Vocabulary of the specification -/

/-- The seven multi-valued fields of a character. -/
def sequenceFields : List String :=
  ["titles", "aliases", "allegiances", "books", "povBooks", "tvSeries", "playedBy"]

/-- Whether a value is an array. -/
def JsVal.isArr : JsVal → Bool
  | .arr _ => true
  | _ => false

/-- Whether the field `key` of `character` is present as a sequence. -/
def seqPresent (character : JsVal) (key : String) : Bool :=
  match character.getProp key with
  | .ok v => v.isArr
  | .error _ => false

/-- A character whose seven sequence fields are present. -/
def hasSequenceFields (character : JsVal) : Bool :=
  sequenceFields.all (seqPresent character)

/-- The value of the field `key`, `undefined` when there is none. -/
def fieldOf (character : JsVal) (key : String) : JsVal :=
  match character.getProp key with
  | .ok v => v
  | .error _ => .undefined

/-- The elements of the sequence field `key`. -/
def seqOf (character : JsVal) (key : String) : List JsVal :=
  match character.getProp key with
  | .ok (.arr xs) => xs
  | _ => []

/-- The policy default of a scalar column. -/
def defaultOf (col : String) : String :=
  if col = "name" then "Unknown" else "N/A"

/-- The stored value the specification gives for the column `col`, derived
from the field of the same name: a sequence field is joined with ", " and
replaced by "N/A" when the result is empty, a scalar field is kept when it is
truthy and replaced by its policy default otherwise. -/
def specValue (character : JsVal) (col : String) : JsVal :=
  if col ∈ sequenceFields then
    if joinList ", " (seqOf character col) = "" then .str "N/A"
    else .str (joinList ", " (seqOf character col))
  else
    if (fieldOf character col).truthy then fieldOf character col
    else .str (defaultOf col)

end IceAndFire

/-! ## Vocabulary for the store and the network -/

namespace IceAndFire

/-- The outcome of one request, parsing included. -/
def settle (net : Net) (url : String) : Except JsError JsVal :=
  match net url with
  | .ok res => res.json
  | .error e => .error e

/-- The row the specification stores for a character under the id `id`. -/
def rowOf (id : Nat) (character : JsVal) : Row :=
  ⟨id, insertColumns.map (fun col => (col, specValue character col))⟩

/-- One row per character, under consecutive ids from `start`. -/
def rowsFrom (start : Nat) : List JsVal → List Row
  | [] => []
  | c :: cs => rowOf start c :: rowsFrom (start + 1) cs

/-- The characters of a batch whose statement, executed at the positions
`pos`, `pos + 1`, ..., the engine does not reject. -/
def accepted (fault : Fault) (pos : Nat) (cs : List JsVal) : List JsVal :=
  ((cs.enumFrom pos).filter (fun p => !fault p.1)).map Prod.snd

/-- A world whose table exists and is empty. -/
def readyWorld : World :=
  { db := { created := true, rows := [], nextId := 1, executed := 0 }, data := [], out := [] }

/-- A network on which each of the four URLs returns the given character. -/
def netOf (c0 c1 c2 c3 : JsVal) : Net := fun url =>
  if url = "https://anapioficeandfire.com/api/characters/300" then .ok ⟨.ok c0⟩
  else if url = "https://anapioficeandfire.com/api/characters/301" then .ok ⟨.ok c1⟩
  else if url = "https://anapioficeandfire.com/api/characters/302" then .ok ⟨.ok c2⟩
  else if url = "https://anapioficeandfire.com/api/characters/303" then .ok ⟨.ok c3⟩
  else .error .networkError

/-- A network on which the request for character 302 is rejected and the
other three return a character. -/
def netDown : Net := fun url =>
  if url = "https://anapioficeandfire.com/api/characters/302" then .error .networkError
  else .ok ⟨.ok (.obj [("name", .str "Jon Snow"), ("titles", .arr [])])⟩

end IceAndFire

/-! ## Sample characters -/

namespace IceAndFire

/-- A character as the API returns it, every field present. -/
def jonSnow : JsVal :=
  .obj [("name", .str "Jon Snow"), ("gender", .str "Male"), ("culture", .str "Northmen"),
    ("born", .str "In 283 AC"), ("died", .str ""), ("titles", .arr [.str "Ser", .str "Lord"]),
    ("aliases", .arr [.str "Lord Snow"]), ("allegiances", .arr []), ("books", .arr []),
    ("father", .str ""), ("mother", .str ""), ("spouse", .str ""), ("povBooks", .arr []),
    ("tvSeries", .arr [.str "Season 1", .str "Season 2"]),
    ("playedBy", .arr [.str "Kit Harington"])]

/-- A character with its seven sequence fields and no scalar field at all. -/
def nameless : JsVal :=
  .obj [("titles", .arr []), ("aliases", .arr []), ("allegiances", .arr []),
    ("books", .arr []), ("povBooks", .arr []), ("tvSeries", .arr []), ("playedBy", .arr [])]

/-- A character in which the field `titles` is missing and every other field
is present. -/
def withoutTitles : JsVal :=
  .obj [("name", .str "Jon Snow"), ("gender", .str "Male"), ("culture", .str "Northmen"),
    ("born", .str "In 283 AC"), ("died", .str ""),
    ("aliases", .arr [.str "Lord Snow"]), ("allegiances", .arr []), ("books", .arr []),
    ("father", .str ""), ("mother", .str ""), ("spouse", .str ""), ("povBooks", .arr []),
    ("tvSeries", .arr [.str "Season 1"]), ("playedBy", .arr [.str "Kit Harington"])]

end IceAndFire

/-! ## Lemmas on the argument list -/

namespace IceAndFire

theorem flatten_arr (xs : List JsVal) :
    flatten (.arr xs)
      = .ok (if joinList ", " xs = "" then .str "N/A" else .str (joinList ", " xs)) := by
  by_cases h : joinList ", " xs = "" <;>
    simp [flatten, JsVal.join, JsVal.or, JsVal.truthy, bind, Except.bind, pure, Except.pure, h]

theorem joinArg_of_present (c : JsVal) (f : String) (h : seqPresent c f = true) :
    joinArg c f = .ok (if joinList ", " (seqOf c f) = "" then .str "N/A"
      else .str (joinList ", " (seqOf c f))) := by
  unfold seqPresent at h
  unfold joinArg seqOf
  cases hg : c.getProp f with
  | error e => rw [hg] at h; simp at h
  | ok v =>
    rw [hg] at h
    cases v <;> simp [JsVal.isArr] at h
    simp [bind, Except.bind, flatten_arr]

theorem getProp_ok_of_present (c : JsVal) (g : String) (h : seqPresent c g = true) (f : String) :
    c.getProp f = .ok (fieldOf c f) := by
  cases c <;> simp [seqPresent, JsVal.getProp, JsVal.isArr, fieldOf] at h ⊢

theorem scalarArg_of_present (c : JsVal) (g : String) (h : seqPresent c g = true)
    (f d : String) :
    scalarArg c f d = .ok (if (fieldOf c f).truthy then fieldOf c f else .str d) := by
  unfold scalarArg
  rw [getProp_ok_of_present c g h f]
  simp [bind, Except.bind, pure, Except.pure, JsVal.or]

theorem hasSequenceFields_iff (c : JsVal) :
    hasSequenceFields c = true ↔ ∀ f ∈ sequenceFields, seqPresent c f = true := by
  simp [hasSequenceFields, List.all_eq_true]

/-- The argument list of a character whose sequence fields are present: one
value per column, each the specified value of the column of the same name. -/
theorem insertArgs_eq (c : JsVal) (h : hasSequenceFields c = true) :
    insertArgs c = .ok (insertColumns.map (specValue c)) := by
  have hs := (hasSequenceFields_iff c).mp h
  have h1 := hs "titles" (by decide)
  unfold insertArgs
  rw [joinArg_of_present c "titles" h1, joinArg_of_present c "aliases" (hs _ (by decide)),
    joinArg_of_present c "allegiances" (hs _ (by decide)),
    joinArg_of_present c "books" (hs _ (by decide)),
    joinArg_of_present c "povBooks" (hs _ (by decide)),
    joinArg_of_present c "tvSeries" (hs _ (by decide)),
    joinArg_of_present c "playedBy" (hs _ (by decide))]
  simp only [scalarArg_of_present c "titles" h1]
  rfl

end IceAndFire

/-! ## The stored values of one character -/

namespace IceAndFire

end IceAndFire

/-! ## Claims on the stored values -/

namespace IceAndFire

/-- C3 (evaluation at the failing input): for a character in which `titles`
is missing, the evaluation of the INSERT arguments throws a TypeError, the
transaction callback queues no statement, and `saveDataToSQLite` leaves the
world as it was: no row is inserted for that character. -/
theorem saveDataToSQLite_missing_sequence_throws :
    insertArgs withoutTitles = .error .typeError ∧
      (saveCallback [withoutTitles]).1.length = 0 ∧
      (saveCallback [withoutTitles]).2 = some .typeError ∧
      ∀ (fault : Fault) (w : World), saveDataToSQLite fault w [withoutTitles] = w :=
  ⟨rfl, rfl, rfl, fun _ _ => rfl⟩

/-- C9: the flattening of a sequence field is not injective. The one-element
sequence ["a, b"] and the two-element sequence ["a", "b"] have the same
stored value, as do [a ++ ", " ++ b] and [a, b] for all strings a and b, so
no function on stored values returns the original sequence for every
input. -/
theorem flatten_not_injective :
    ¬ Function.Injective (fun xs : List String => flatten (.arr (xs.map JsVal.str))) ∧
      flatten (.arr [.str "a, b"]) = flatten (.arr [.str "a", .str "b"]) ∧
      flatten (.arr [.str "a, b"]) = .ok (.str "a, b") ∧
      (∀ a b : String, flatten (.arr [.str (a ++ ", " ++ b)]) = flatten (.arr [.str a, .str b])) ∧
      ¬ ∃ g : Except JsError JsVal → List String,
          ∀ xs : List String, g (flatten (.arr (xs.map JsVal.str))) = xs := by
  have hab : flatten (.arr (["a, b"].map JsVal.str)) = flatten (.arr (["a", "b"].map JsVal.str)) :=
    rfl
  refine ⟨?_, rfl, rfl, ?_, ?_⟩
  · intro hinj
    exact absurd (hinj hab) (by decide)
  · intro a b
    simp [flatten_arr, joinList, JsVal.joinText]
  · rintro ⟨g, hg⟩
    have h1 := hg ["a, b"]
    have h2 := hg ["a", "b"]
    rw [hab, h2] at h1
    exact absurd h1 (by decide)

end IceAndFire

/-! ## Lemmas on transactions -/

namespace IceAndFire

theorem saveCallback_of_present (cs : List JsVal)
    (h : ∀ c ∈ cs, hasSequenceFields c = true) :
    saveCallback cs
      = (cs.map (fun c => insertTask c (insertColumns.map (specValue c))), none) := by
  induction cs with
  | nil => rfl
  | cons c rest ih =>
    have hc := insertArgs_eq c (h c (List.mem_cons_self c rest))
    have hr := ih (fun d hd => h d (List.mem_cons_of_mem c hd))
    simp only [saveCallback, hc, hr, List.map_cons]

theorem zip_map_columns (g : String → JsVal) :
    insertColumns.zip (insertColumns.map g) = insertColumns.map (fun col => (col, g col)) := rfl

theorem runTask_insert_rejected (fault : Fault) (w : World) (c : JsVal)
    (h : fault w.db.executed = true) :
    runTask fault w (insertTask c (insertColumns.map (specValue c)))
      = ⟨⟨w.db.created, w.db.rows, w.db.nextId, w.db.executed + 1⟩, w.data,
          w.out ++ [.errorSavingCharacter]⟩ := by
  simp [runTask, execSql, insertTask, h, World.emit, Db.tick]

theorem runTask_insert_accepted (fault : Fault) (w : World) (c : JsVal)
    (h : fault w.db.executed = false) (hc : w.db.created = true) :
    runTask fault w (insertTask c (insertColumns.map (specValue c)))
      = ⟨⟨w.db.created, w.db.rows ++ [rowOf w.db.nextId c], w.db.nextId + 1,
            w.db.executed + 1⟩, w.data,
          w.out ++ [.characterInserted (nameOf c), .toastSuccess]⟩ := by
  simp [runTask, execSql, insertTask, h, hc, World.emit, rowOf, zip_map_columns, Db.tick]

theorem accepted_cons_rejected (fault : Fault) (pos : Nat) (c : JsVal) (cs : List JsVal)
    (h : fault pos = true) : accepted fault pos (c :: cs) = accepted fault (pos + 1) cs := by
  simp [accepted, List.filter_cons, h]

theorem accepted_cons_accepted (fault : Fault) (pos : Nat) (c : JsVal) (cs : List JsVal)
    (h : fault pos = false) :
    accepted fault pos (c :: cs) = c :: accepted fault (pos + 1) cs := by
  simp [accepted, List.filter_cons, h]

/-- The inserts of a batch, run on an existing table: every statement is
executed, and the store gains one row, under the next free id, for exactly
the characters whose statement the engine accepts. -/
theorem foldl_insertTasks (fault : Fault) (cs : List JsVal) :
    ∀ w : World, w.db.created = true →
      ((cs.map (fun c => insertTask c (insertColumns.map (specValue c)))).foldl
          (runTask fault) w).db
        = { created := true
            rows := w.db.rows ++ rowsFrom w.db.nextId (accepted fault w.db.executed cs)
            nextId := w.db.nextId + (accepted fault w.db.executed cs).length
            executed := w.db.executed + cs.length } ∧
      ((cs.map (fun c => insertTask c (insertColumns.map (specValue c)))).foldl
          (runTask fault) w).data = w.data := by
  induction cs with
  | nil =>
    intro w hc
    obtain ⟨db, data, out⟩ := w
    obtain ⟨created, rows, nextId, executed⟩ := db
    simp only at hc
    subst hc
    simp [accepted, rowsFrom]
  | cons c rest ih =>
    intro w hc
    simp only [List.map_cons, List.foldl_cons]
    cases hf : fault w.db.executed with
    | true =>
      rw [runTask_insert_rejected fault w c hf, accepted_cons_rejected fault _ c rest hf]
      obtain ⟨h1, h2⟩ := ih ⟨⟨w.db.created, w.db.rows, w.db.nextId, w.db.executed + 1⟩, w.data,
        w.out ++ [.errorSavingCharacter]⟩ hc
      rw [h1, h2]
      simp [Nat.add_assoc, Nat.add_comm 1]
    | false =>
      rw [runTask_insert_accepted fault w c hf hc, accepted_cons_accepted fault _ c rest hf]
      obtain ⟨h1, h2⟩ := ih ⟨⟨w.db.created, w.db.rows ++ [rowOf w.db.nextId c], w.db.nextId + 1,
        w.db.executed + 1⟩, w.data, w.out ++ [.characterInserted (nameOf c), .toastSuccess]⟩ hc
      rw [h1, h2]
      simp [rowsFrom, Nat.add_assoc, Nat.add_comm 1]

/-- The store after `saveDataToSQLite` on a batch whose sequence fields are
present, on an existing table. -/
theorem saveDataToSQLite_db (fault : Fault) (w : World) (cs : List JsVal)
    (hc : w.db.created = true) (h : ∀ c ∈ cs, hasSequenceFields c = true) :
    (saveDataToSQLite fault w cs).db
        = { created := true
            rows := w.db.rows ++ rowsFrom w.db.nextId (accepted fault w.db.executed cs)
            nextId := w.db.nextId + (accepted fault w.db.executed cs).length
            executed := w.db.executed + cs.length } ∧
      (saveDataToSQLite fault w cs).data = w.data := by
  unfold saveDataToSQLite transaction
  rw [saveCallback_of_present cs h]
  exact foldl_insertTasks fault cs w hc

end IceAndFire

/-! ## Lemmas on the fetch and on repeated runs -/

namespace IceAndFire

theorem promiseAll_ok_iff {α : Type} (ps : List (Except JsError α)) :
    ∀ vs : List α, promiseAll ps = .ok vs ↔ ps = vs.map Except.ok := by
  induction ps with
  | nil =>
    intro vs
    cases vs <;> simp [promiseAll]
  | cons p rest ih =>
    intro vs
    cases p with
    | error e => cases vs <;> simp [promiseAll]
    | ok v =>
      cases hr : promiseAll rest with
      | error e =>
        cases vs with
        | nil => simp [promiseAll, hr]
        | cons x xs =>
          have hno : ¬ rest = xs.map Except.ok := fun h => by
            rw [(ih xs).mpr h] at hr
            cases hr
          simp [promiseAll, hr, hno]
      | ok ws =>
        have hws := (ih ws).mp hr
        cases vs with
        | nil => simp [promiseAll, hr]
        | cons x xs =>
          simp only [promiseAll, hr, List.map_cons, List.cons.injEq, Except.ok.injEq]
          constructor
          · rintro ⟨h1, h2⟩
            exact ⟨h1, by rw [← h2]; exact hws⟩
          · rintro ⟨h1, h2⟩
            refine ⟨h1, ?_⟩
            have := (ih xs).mpr h2
            rw [hr] at this
            exact Except.ok.inj this

theorem settle_map (net : Net) (us : List String) (rs : List Response)
    (h : us.map net = rs.map Except.ok) :
    us.map (settle net) = rs.map (fun res => res.json) := by
  induction us generalizing rs with
  | nil => cases rs <;> simp at h ⊢
  | cons u rest ih =>
    cases rs with
    | nil => simp at h
    | cons r rs =>
      simp only [List.map_cons, List.cons.injEq] at h ⊢
      exact ⟨by simp [settle, h.1], ih rs h.2⟩

theorem responses_of_settle (net : Net) (us : List String) :
    ∀ cs : List JsVal, us.map (settle net) = cs.map Except.ok →
      ∃ rs : List Response, us.map net = rs.map Except.ok := by
  induction us with
  | nil => intro cs _; exact ⟨[], rfl⟩
  | cons u rest ih =>
    intro cs h
    cases cs with
    | nil => simp at h
    | cons c cs =>
      simp only [List.map_cons, List.cons.injEq] at h
      obtain ⟨rs, hrs⟩ := ih cs h.2
      cases hu : net u with
      | error e => simp [settle, hu] at h
      | ok r => exact ⟨r :: rs, by simp [hrs, hu]⟩

/-- The awaited part of `fetchData` fulfils with `cs` exactly when the four
requests settle to the elements of `cs`, in URL order. -/
theorem fetchJson_ok_iff (net : Net) (cs : List JsVal) :
    fetchJson net = .ok cs ↔ urls.map (settle net) = cs.map Except.ok := by
  unfold fetchJson
  constructor
  · intro h
    cases h1 : promiseAll (urls.map net) with
    | error e => simp [h1, bind, Except.bind] at h
    | ok rs =>
      simp only [h1, bind, Except.bind, pure, Except.pure] at h
      cases h2 : promiseAll (rs.map (fun res => res.json)) with
      | error e => simp [h2] at h
      | ok ds =>
        simp only [h2, Except.ok.injEq] at h
        subst h
        rw [settle_map net urls rs ((promiseAll_ok_iff _ rs).mp h1)]
        exact (promiseAll_ok_iff _ ds).mp h2
  · intro h
    obtain ⟨rs, hrs⟩ := responses_of_settle net urls cs h
    have h1 := (promiseAll_ok_iff _ rs).mpr hrs
    rw [settle_map net urls rs hrs] at h
    have h2 := (promiseAll_ok_iff _ cs).mpr h
    simp [h1, h2, bind, Except.bind, pure, Except.pure]

theorem fetchData_of_settled (net : Net) (fault : Fault) (w : World) (cs : List JsVal)
    (h : urls.map (settle net) = cs.map Except.ok) :
    fetchData net fault w = saveDataToSQLite fault (w.emit (.fetchedData cs)) cs := by
  simp [fetchData, (fetchJson_ok_iff net cs).mpr h]

end IceAndFire

/-! ## Claims on the flow -/

namespace IceAndFire

/-- C4: for every outcome of the four requests, if at least one request (or
the parsing of its response) fails, `fetchData` only logs the error:
`saveDataToSQLite` is not called and the store is left as it was; if all
four succeed, the four parsed records are passed to `saveDataToSQLite` in URL
order. -/
theorem fetchData_all_or_nothing (net : Net) (fault : Fault) (w : World) :
    ((∃ u ∈ urls, ∃ e, settle net u = .error e) →
      ∃ e, fetchJson net = .error e ∧
        fetchData net fault w = w.emit (.errorFetchingData e) ∧
        (fetchData net fault w).db = w.db) ∧
    (∀ cs : List JsVal, urls.map (settle net) = cs.map Except.ok →
      fetchJson net = .ok cs ∧ cs.length = 4 ∧
        fetchData net fault w = saveDataToSQLite fault (w.emit (.fetchedData cs)) cs) := by
  constructor
  · rintro ⟨u, hu, e, he⟩
    cases hfj : fetchJson net with
    | ok cs =>
      have hmap := (fetchJson_ok_iff net cs).mp hfj
      have hmem : settle net u ∈ cs.map Except.ok := by
        rw [← hmap]
        exact List.mem_map_of_mem _ hu
      rw [he] at hmem
      simp at hmem
    | error e2 =>
      exact ⟨e2, rfl, by simp [fetchData, hfj], by simp [fetchData, hfj, World.emit]⟩
  · intro cs hcs
    have hfj := (fetchJson_ok_iff net cs).mpr hcs
    refine ⟨hfj, ?_, fetchData_of_settled net fault w cs hcs⟩
    have := congrArg List.length hcs
    simpa [urls] using this.symm

/-- Witness of C4: with the request for character 302 rejected nothing is
stored, and with four answers the four records are saved in URL order. -/
theorem fetchData_all_or_nothing_witness :
    (fetchData netDown noFault readyWorld).db.rows.length = 0 ∧
      fetchData (netOf jonSnow nameless jonSnow nameless) noFault readyWorld
        = saveDataToSQLite noFault
            (readyWorld.emit (.fetchedData [jonSnow, nameless, jonSnow, nameless]))
            [jonSnow, nameless, jonSnow, nameless] := by
  constructor
  · obtain ⟨e, _, _, h3⟩ := (fetchData_all_or_nothing netDown noFault readyWorld).1
      ⟨"https://anapioficeandfire.com/api/characters/302", by decide, .networkError, rfl⟩
    rw [h3]
    rfl
  · exact ((fetchData_all_or_nothing (netOf jonSnow nameless jonSnow nameless) noFault
      readyWorld).2 [jonSnow, nameless, jonSnow, nameless] rfl).2.2

/-- C7: whatever the three steps do, each returning or throwing,
`initializeDatabaseAndFetchData` ends with `loading` equal to false and calls
`setLoading` exactly once, with false; in particular for the three helpers
of the screen, on every network, engine and database. -/
theorem initialize_leaves_loading :
    (∀ (s1 s2 s3 : Step) (scr : Screen),
      (initializeWith s1 s2 s3 scr).loading = false ∧
      (initializeWith s1 s2 s3 scr).setLoadingCalls = scr.setLoadingCalls ++ [false]) ∧
    (∀ (net : Net) (fault : Fault) (db : Db),
      (mount db).loading = true ∧
      (initializeDatabaseAndFetchData net fault (mount db)).loading = false ∧
      (initializeDatabaseAndFetchData net fault (mount db)).setLoadingCalls = [false]) :=
  ⟨fun _ _ _ _ => ⟨rfl, rfl⟩, fun _ _ _ => ⟨rfl, rfl, rfl⟩⟩

end IceAndFire

/-! ## Claims on batches -/

namespace IceAndFire

theorem mem_accepted (fault : Fault) (cs : List JsVal) :
    ∀ (pos j : Nat) (hj : j < cs.length), fault (pos + j) = false →
      cs[j] ∈ accepted fault pos cs := by
  induction cs with
  | nil => intro pos j hj; exact absurd hj (Nat.not_lt_zero j)
  | cons c rest ih =>
    intro pos j hj hok
    cases j with
    | zero =>
      rw [accepted_cons_accepted fault pos c rest (by simpa using hok)]
      exact List.mem_cons_self c _
    | succ k =>
      have hk : k < rest.length := Nat.lt_of_succ_lt_succ hj
      have hmem := ih (pos + 1) k hk (by rw [← hok]; congr 1; omega)
      cases hf : fault pos with
      | true => rw [accepted_cons_rejected fault pos c rest hf]; exact hmem
      | false =>
        rw [accepted_cons_accepted fault pos c rest hf]
        exact List.mem_cons_of_mem c hmem

theorem mem_rowsFrom (cs : List JsVal) (c : JsVal) (hc : c ∈ cs) :
    ∀ start, ∃ r ∈ rowsFrom start cs, start ≤ r.id ∧ r = rowOf r.id c := by
  induction cs with
  | nil => exact absurd hc (List.not_mem_nil c)
  | cons d rest ih =>
    intro start
    rcases List.mem_cons.mp hc with h | h
    · subst h
      exact ⟨rowOf start c, List.mem_cons_self _ _, Nat.le_refl _, rfl⟩
    · obtain ⟨r, hr, hle, hrow⟩ := ih h (start + 1)
      exact ⟨r, List.mem_cons_of_mem _ hr, by omega, hrow⟩

/-- Statement errors of the engine are independent: on an existing table and
for a batch whose sequence fields are present, every statement of the batch
is executed whichever of them the engine rejects, and every character whose
statement is accepted gets a new row. -/
theorem saveDataToSQLite_statement_errors_independent (fault : Fault) (w : World)
    (cs : List JsVal) (hc : w.db.created = true)
    (h : ∀ c ∈ cs, hasSequenceFields c = true) :
    (saveDataToSQLite fault w cs).db.executed = w.db.executed + cs.length ∧
    ∀ (j : Nat) (hj : j < cs.length), fault (w.db.executed + j) = false →
      ∃ r ∈ (saveDataToSQLite fault w cs).db.rows, w.db.nextId ≤ r.id ∧ r = rowOf r.id cs[j] := by
  obtain ⟨hdb, _⟩ := saveDataToSQLite_db fault w cs hc h
  rw [hdb]
  refine ⟨rfl, ?_⟩
  intro j hj hok
  obtain ⟨r, hr, hle, hrow⟩ :=
    mem_rowsFrom _ cs[j] (mem_accepted fault cs w.db.executed j hj hok) w.db.nextId
  exact ⟨r, List.mem_append_right _ hr, hle, hrow⟩

/-- C6 (evaluation at the failing input): alone, the well-formed record is
inserted; in a batch where it comes after the record without `titles`,
whose insertion fails with a TypeError, the exception leaves the loop, no
statement is queued for the well-formed record and no row is inserted. -/
theorem saveDataToSQLite_throw_blocks_batch :
    (saveDataToSQLite noFault readyWorld [jonSnow]).db.rows.length = 1 ∧
    insertArgs withoutTitles = .error .typeError ∧
    (saveCallback [withoutTitles, jonSnow]).1.length = 0 ∧
    (saveCallback [withoutTitles, jonSnow]).2 = some .typeError ∧
    (saveDataToSQLite noFault readyWorld [withoutTitles, jonSnow]).db.rows.length = 0 :=
  ⟨rfl, rfl, rfl, rfl, rfl⟩

end IceAndFire
